import Mathlib

/-!
Shallow embedding of the formulation-pubmed background pipeline.

The definitions below are translated from the Python sources:
* `src/git_manager.py`   — checkpoint/replication cadence (GitManager)
* `src/data_processor.py` — relevance scoring and enrichment (DataProcessor)
* `src/background_processor.py` — stage workers, dedup index, RAG chunking
* `src/fulltext_downloader.py` — full-text source adapter loop

Python `str` is modelled by Lean `String`; Python `float` arithmetic in the
relevance score is modelled exactly over `ℚ` (all the constants involved are
decimal literals, and every fact proved below about scores is insensitive to
the float/rational distinction at the inputs considered).  Clock time is
modelled as seconds (`Nat`).  Fallible external effects (git commit/push,
full-text adapters) are modelled by explicit outcome parameters, and the
observable effects of a worker-loop body (queue puts, store writes, dedup
insertions, whether the body raised into the loop's exception handler) are
returned as explicit records.
-/

namespace PubmedPipeline

/-! ## Git manager (`src/git_manager.py`) -/

/-- Mutable state of `GitManager`: `commit_count` and `last_push_time`
(`None` until a push succeeds; modelled in seconds). -/
structure GitState where
  commit_count : Nat
  last_push_time : Option Nat
deriving DecidableEq

/-- `GitManager._is_hourly_push_needed`: true when no push ever happened or
more than 3600 seconds elapsed since the last successful push. -/
def isHourlyPushNeeded (st : GitState) (now : Nat) : Bool :=
  match st.last_push_time with
  | none => true
  | some t => decide (now - t > 3600)

/-- The `commit_conditions` dict of `GitManager._should_commit`; `none`
models a key that is absent from the dict (`dict.get` default). -/
def commitConditions (stage : String) (count : Nat) : Option Bool :=
  if stage = "metadata" then some (decide (count % 10 = 0))
  else if stage = "abstract" then some (decide (count % 5 = 0))
  else if stage = "fulltext" then some (decide (count % 3 = 0))
  else if stage = "ocr" then some (decide (count % 2 = 0))
  else if stage = "batch_complete" then some true
  else if stage = "status_update" then some true
  else none

/-- `GitManager._should_commit`. -/
def shouldCommit (stage : String) (count : Nat) (force : Bool) : Bool :=
  if force then true
  else (commitConditions stage count).getD false

/-- The `push_conditions` dict of `GitManager._should_push`; the hourly
heartbeat check is the value stored under the `'hourly'` key. -/
def pushConditions (st : GitState) (now : Nat) (stage : String) (count : Nat) :
    Option Bool :=
  if stage = "metadata" then some (decide (count % 50 = 0))
  else if stage = "abstract" then some (decide (count % 25 = 0))
  else if stage = "fulltext" then some (decide (count % 10 = 0))
  else if stage = "ocr" then some (decide (count % 5 = 0))
  else if stage = "batch_complete" then some true
  else if stage = "status_update" then some true
  else if stage = "hourly" then some (isHourlyPushNeeded st now)
  else none

/-- `GitManager._should_push`. -/
def shouldPush (st : GitState) (now : Nat) (stage : String) (count : Nat)
    (force : Bool) : Bool :=
  if force then true
  else (pushConditions st now stage count).getD false

/-- External git actions attempted by `commit_and_push_if_needed`, in order. -/
inductive GitAction where
  | stageAll
  | commit
  | push
deriving DecidableEq

/-- Observable outcome of one `commit_and_push_if_needed` call: the ordered
list of git actions attempted, the returned boolean, and the state after. -/
structure GitOutcome where
  attempts : List GitAction
  result : Bool
  commit_count : Nat
  last_push_time : Option Nat
deriving DecidableEq

/-- `GitManager.commit_and_push_if_needed`.  `commitOk` and `pushOk` are the
boolean results of the external `git commit` / `git push` subprocess calls
(`_commit_changes` / `_push_changes`); `_stage_changes`'s result is ignored
by the source, exactly as here. -/
def commitAndPushIfNeeded (st : GitState) (now : Nat) (stage : String)
    (count : Nat) (force commitOk pushOk : Bool) : GitOutcome :=
  if ¬ shouldCommit stage count force then
    { attempts := [], result := false,
      commit_count := st.commit_count, last_push_time := st.last_push_time }
  else if ¬ commitOk then
    { attempts := [GitAction.stageAll, GitAction.commit], result := false,
      commit_count := st.commit_count, last_push_time := st.last_push_time }
  else if shouldPush st now stage count force then
    if pushOk then
      { attempts := [GitAction.stageAll, GitAction.commit, GitAction.push],
        result := true, commit_count := st.commit_count + 1,
        last_push_time := some now }
    else
      { attempts := [GitAction.stageAll, GitAction.commit, GitAction.push],
        result := false, commit_count := st.commit_count + 1,
        last_push_time := st.last_push_time }
  else
    { attempts := [GitAction.stageAll, GitAction.commit], result := true,
      commit_count := st.commit_count + 1, last_push_time := st.last_push_time }

/-! ## Python string helpers -/

/-- Python `str.lower()` (the keyword tables involved are ASCII). -/
def pyLower (s : String) : String := String.mk (s.data.map Char.toLower)

/-- Prefix test on character lists (helper for substring containment). -/
def prefixAt : List Char → List Char → Bool
  | [], _ => true
  | _ :: _, [] => false
  | a :: as, b :: bs => a == b && prefixAt as bs

/-- Substring containment on character lists. -/
def containsSub (needle : List Char) : List Char → Bool
  | [] => needle.isEmpty
  | c :: rest => prefixAt needle (c :: rest) || containsSub needle rest

/-- Python `needle in hay` on strings. -/
def strContains (needle hay : String) : Bool := containsSub needle.data hay.data

/-- Core of Python `str.split()` (no argument): split on whitespace runs,
discarding empty tokens.  `acc` holds the current token reversed. -/
def splitWsCore : List Char → List Char → List (List Char)
  | [], acc => if acc.isEmpty then [] else [acc.reverse]
  | c :: cs, acc =>
    if c.isWhitespace then
      if acc.isEmpty then splitWsCore cs []
      else acc.reverse :: splitWsCore cs []
    else splitWsCore cs (c :: acc)

/-- Python `str.split()` with no argument. -/
def pySplitWs (s : String) : List String := (splitWsCore s.data []).map String.mk

/-- Python `' '.join(ws)`. -/
def joinSpace : List String → String
  | [] => ""
  | [w] => w
  | w :: ws => w ++ " " ++ joinSpace ws

/-- Core of Python `str.strip()`: drop whitespace from both ends. -/
def stripCore (l : List Char) : List Char :=
  ((l.dropWhile Char.isWhitespace).reverse.dropWhile Char.isWhitespace).reverse

/-- Python `str.strip()`. -/
def pyStrip (s : String) : String := String.mk (stripCore s.data)

/-! ## Article record (the accretive per-item dict) -/

/-- Model of the per-article Python dict.  Fields absent from a dict are
modelled by defaults (`.get` with its default); `pmid` keeps `Option`
because the search worker reads it with `.get('pmid')` whose default is
`None`.  Enrichment fields not observed by any claim (entity lists, key
phrases, timestamps) are not carried. -/
structure Article where
  pmid : Option String := none
  title : String := ""
  abstract : String := ""
  keywords : List String := []
  mesh_terms : List String := []
  relevance_score : Option ℚ := none
  full_text : Option String := none
  full_text_source : Option String := none
deriving DecidableEq

/-- Python truthiness of an optional string (`None` and `''` are falsy). -/
def strTruthy : Option String → Bool
  | none => false
  | some s => decide (s ≠ "")

/-! ## Data processor (`src/data_processor.py`) -/

/-- `DataProcessor.formulation_keywords`. -/
def formulation_keywords : List String :=
  ["formulation", "extract", "extraction", "cannabinoid", "terpene",
   "stability", "bioavailability", "dosage", "delivery", "pharmaceutical",
   "purification", "distillation", "concentration", "potency"]

/-- `DataProcessor.cannabis_terms`. -/
def cannabis_terms : List String :=
  ["cannabis", "marijuana", "hemp", "cbd", "thc", "cannabinoid",
   "terpene", "myrcene", "limonene", "pinene", "linalool"]

/-- Python two-argument `min` on numbers: the first argument when it is
less than or equal to the second.  (Defined explicitly so that proofs can
evaluate it; it agrees with `min` on `ℚ`.) -/
def ratMin (a b : ℚ) : ℚ := if a ≤ b then a else b

/-- `DataProcessor._calculate_text_relevance`, over `ℚ`. -/
def calcTextRelevance (text : String) : ℚ :=
  if text = "" then 0
  else
    let fcount := (formulation_keywords.filter (fun k => strContains k text)).length
    let ccount := (cannabis_terms.filter (fun t => strContains t text)).length
    let total := (pySplitWs text).length
    if total = 0 then 0
    else
      let fdensity : ℚ := (fcount : ℚ) / (total : ℚ)
      let cdensity : ℚ := (ccount : ℚ) / (total : ℚ)
      ratMin ((fdensity * (6/10) + cdensity * (4/10)) * 10) 1

/-- `DataProcessor._calculate_relevance_score`, over `ℚ`. -/
def calcRelevanceScore (a : Article) : ℚ :=
  let titleScore := calcTextRelevance (pyLower a.title)
  let abstractScore := calcTextRelevance (pyLower a.abstract)
  let keywordsStr := pyLower (joinSpace a.keywords)
  let meshStr := pyLower (joinSpace a.mesh_terms)
  let keywordScore := calcTextRelevance (keywordsStr ++ " " ++ meshStr)
  ratMin (titleScore * (4/10) + abstractScore * (4/10) + keywordScore * (2/10)) 1

/-- `DataProcessor._process_single_article`: attach the relevance score and
filter out articles scoring below 0.3 (the `None` return). -/
def processSingleArticle (a : Article) : Option Article :=
  let r := calcRelevanceScore a
  let processed := { a with relevance_score := some r }
  if r < 3/10 then none else some processed

/-- `DataProcessor.process_articles`: per-article processing, appending only
non-`None` results (a failed or filtered article is left out of the list). -/
def processArticles (articles : List Article) : List Article :=
  articles.filterMap processSingleArticle

/-! ## Work items and stage workers (`src/background_processor.py`) -/

/-- Item of the shared `processing_queue`. -/
structure WorkItem where
  pmid : String
  article : Article
  stage : String
  category : String
  search_term : String
deriving DecidableEq

/-- Per-article body of `_search_worker`: enqueue a metadata-stage item iff
the pmid is truthy and not in `processed_pmids`. -/
def enqueueFromSearch (processed_pmids : List String) (category term : String)
    (a : Article) : Option WorkItem :=
  match a.pmid with
  | none => none
  | some pmid =>
    if pmid = "" then none
    else if pmid ∈ processed_pmids then none
    else some { pmid := pmid, article := a, stage := "metadata",
                category := category, search_term := term }

/-- `_search_worker` handling of one search result list. -/
def searchWorkerEnqueue (processed_pmids : List String) (category term : String)
    (articles : List Article) : List WorkItem :=
  articles.filterMap (enqueueFromSearch processed_pmids category term)

/-- Observable outcome of one `_processing_worker` loop body on one dequeued
item: the dedup index after, the items put back on the queue, the store
writes `(pmid, artifactKind)`, and whether the body raised into the loop's
`except` handler. -/
structure ProcOutcome where
  processed_pmids : List String
  enqueued : List WorkItem
  stores : List (String × String)
  raised : Bool
deriving DecidableEq

/-- One `_processing_worker` loop body.  The worker does not inspect
`item.stage`; it skips (discards) any item whose pmid is already in
`processed_pmids`, and otherwise indexes `process_articles([article])[0]`,
which raises `IndexError` when the article was filtered out.  On success the
filtered dict is non-empty, hence truthy, so the store/enqueue branch is
always taken, and `processed_pmids.add(pmid)` runs afterwards. -/
def processingWorkerStep (processed_pmids : List String) (item : WorkItem) :
    ProcOutcome :=
  if item.pmid ∈ processed_pmids then
    { processed_pmids := processed_pmids, enqueued := [], stores := [],
      raised := false }
  else
    match processArticles [item.article] with
    | [] =>
      { processed_pmids := processed_pmids, enqueued := [], stores := [],
        raised := true }
    | pa :: _ =>
      { processed_pmids := processed_pmids.insert item.pmid,
        enqueued := [{ pmid := item.pmid, article := pa, stage := "fulltext",
                       category := item.category,
                       search_term := item.search_term }],
        stores := [(item.pmid, "abstract"), (item.pmid, "metadata")],
        raised := false }

/-! ## Full-text downloader (`src/fulltext_downloader.py`) -/

/-- Whether one adapter call counts as a success in `download_full_text`:
`none` models a raised exception or falsy result, otherwise the result must
have a truthy `full_text`. -/
def adapterSucceeds : Option Article → Bool
  | none => false
  | some r => strTruthy r.full_text

/-- The adapter preference loop of `download_full_text`: return the first
result with a truthy `full_text`; after exhausting all adapters, return the
original article dict unchanged. -/
def downloadLoop (article : Article) : List (Option Article) → Article
  | [] => article
  | r :: rest =>
    match r with
    | none => downloadLoop article rest
    | some result =>
      if strTruthy result.full_text then result else downloadLoop article rest

/-- `FullTextDownloader.download_full_text`.  `existing` models
`_check_existing_download`; `adapterResults` models the outcome of each
source adapter in preference order. -/
def downloadFullText (existing : Option Article)
    (adapterResults : List (Option Article)) (article : Article) : Article :=
  match existing with
  | some e => e
  | none => downloadLoop article adapterResults

/-- Observable outcome of one `_fulltext_worker` loop body. -/
structure FtOutcome where
  enqueued : List WorkItem
  stores : List (String × String)
deriving DecidableEq

/-- One `_fulltext_worker` loop body: a mismatched-stage item is put back on
the queue unchanged; otherwise the downloader result is stored and an
ocr-stage successor enqueued only when it has a truthy `full_text`. -/
def fulltextWorkerStep (existing : Option Article)
    (adapterResults : List (Option Article)) (item : WorkItem) : FtOutcome :=
  if item.stage ≠ "fulltext" then { enqueued := [item], stores := [] }
  else
    let fd := downloadFullText existing adapterResults item.article
    if strTruthy fd.full_text then
      { enqueued := [{ pmid := item.pmid, article := fd, stage := "ocr",
                       category := item.category,
                       search_term := item.search_term }],
        stores := [(item.pmid, "fulltext")] }
    else { enqueued := [], stores := [] }

/-- One `_ocr_worker` loop body, restricted to its queue routing: a
mismatched-stage item is put back unchanged; a matching item is processed in
place and nothing is enqueued. -/
def ocrWorkerStep (item : WorkItem) : List WorkItem :=
  if item.stage ≠ "ocr" then [item] else []

/-! ## RAG chunking (`_create_rag_chunks`) -/

/-- A RAG chunk as built by `_create_rag_chunks`. -/
structure Chunk where
  pmid : String
  chunk_id : String
  text : String
  start_word : Nat
  end_word : Nat
  word_count : Nat
deriving DecidableEq

/-- Python `range(0, n, step)` for `step > 0`: the `⌈n / step⌉` multiples of
`step` below `n`. -/
def windowStarts (n step : Nat) : List Nat :=
  (List.range ((n + step - 1) / step)).map (fun k => k * step)

/-- The `for i in range(...)` loop body of `_create_rag_chunks`, with `acc`
the chunks built so far (`len(chunks)` is the next chunk index). -/
def chunkLoop (pmid : String) (words : List String) (chunk_size : Nat)
    (acc : List Chunk) : List Nat → List Chunk
  | [] => acc
  | i :: rest =>
    let chunk_words := (words.drop i).take chunk_size
    let chunk_text := joinSpace chunk_words
    if 50 < (pyStrip chunk_text).length then
      chunkLoop pmid words chunk_size
        (acc ++ [{ pmid := pmid,
                   chunk_id := pmid ++ "_" ++ toString acc.length,
                   text := chunk_text, start_word := i,
                   end_word := min (i + chunk_size) words.length,
                   word_count := chunk_words.length }]) rest
    else chunkLoop pmid words chunk_size acc rest

/-- `_create_rag_chunks` (defaults in the source: `chunk_size=1000`,
`overlap=200`).  `range(0, len(words), chunk_size - overlap)` raises
`ValueError` when the step is zero, yields nothing when the step is
negative, and otherwise walks the multiples of the step. -/
def createRagChunks (text pmid : String) (chunk_size overlap : Nat) :
    Except String (List Chunk) :=
  let words := pySplitWs text
  if chunk_size = overlap then
    Except.error ("range() arg 3 must not be zero")
  else if chunk_size < overlap then Except.ok []
  else
    Except.ok (chunkLoop pmid words chunk_size []
      (windowStarts words.length (chunk_size - overlap)))

/-! ## Declarative helpers about chunking (used to state and prove the
chunking claims; these follow the loop above, not the spec text) -/

/-- The text of the word window starting at `i`. -/
def windowText (words : List String) (chunk_size i : Nat) : String :=
  joinSpace ((words.drop i).take chunk_size)

/-- Whether the window starting at `i` passes the 50-character filter. -/
def chunkKept (words : List String) (chunk_size i : Nat) : Bool :=
  decide (50 < (pyStrip (windowText words chunk_size i)).length)

/-- The chunk record built for window `i` when it is the `k`-th kept one. -/
def chunkOf (pmid : String) (words : List String) (chunk_size k i : Nat) :
    Chunk :=
  { pmid := pmid, chunk_id := pmid ++ "_" ++ toString k,
    text := windowText words chunk_size i, start_word := i,
    end_word := min (i + chunk_size) words.length,
    word_count := ((words.drop i).take chunk_size).length }

/-- Accumulator-free form of `chunkLoop`: `k` is the index of the next kept
chunk. -/
def buildChunks (pmid : String) (words : List String) (chunk_size : Nat) :
    Nat → List Nat → List Chunk
  | _, [] => []
  | k, i :: rest =>
    if chunkKept words chunk_size i then
      chunkOf pmid words chunk_size k i ::
        buildChunks pmid words chunk_size (k + 1) rest
    else buildChunks pmid words chunk_size k rest

/-! ## Concrete instances used in witnesses and counterexamples -/

/-- A fulltext-stage item as it would sit on the shared queue after the
metadata worker completed `'111'`. -/
def mismatchedItem : WorkItem :=
  { pmid := "111", article := {}, stage := "fulltext", category := "c",
    search_term := "t" }

/-- An article whose computed relevance is 0 (all text fields empty), hence
below the 0.3 threshold. -/
def lowRelArticle : Article := {}

/-- A metadata-stage item carrying `lowRelArticle`. -/
def lowRelItem : WorkItem :=
  { pmid := "a1", article := lowRelArticle, stage := "metadata",
    category := "c", search_term := "t" }

/-- An article scoring 4/5 (above the threshold): title and abstract are
both `"cannabis formulation"`. -/
def relevantArticle : Article :=
  { title := "cannabis formulation", abstract := "cannabis formulation" }

/-- A text that is a single 50-character word: its only window has trimmed
length exactly 50. -/
def text50 : String := String.mk (List.replicate 50 'a')

/-- A text that is a single 51-character word. -/
def text51 : String := String.mk (List.replicate 51 'a')

/-- The chunk list produced for `text51` under the default configuration. -/
def res51 : List Chunk :=
  [{ pmid := "p", chunk_id := "p_0", text := text51, start_word := 0,
     end_word := 1, word_count := 1 }]

/-- 830 one-character words: under the default configuration this yields
two windows, at word 0 and word 800, the first truncated by the end of the
text (829 < 1000 words remain after word 0... precisely, its `end_word` is
clamped to 830). -/
def text830 : String := joinSpace (List.replicate 830 ("a"))

/-- The chunk list produced for `text830` under the default configuration. -/
def res830 : List Chunk :=
  [chunkOf ("p") (List.replicate 830 ("a")) 1000 0 0,
   chunkOf ("p") (List.replicate 830 ("a")) 1000 1 800]


/-! ## Theorems: checkpoint coordinator (C1, C9, C10) -/

/-- C1 (counterexample).  State in which no push has ever happened (so the
heartbeat is due), stage `'metadata'` with a count that satisfies the commit
table but not the push table, no force: the call commits but attempts no
push and the heartbeat is ignored, contradicting the claim that the next
`record()` call returns `pushed=true` for any stage. -/
theorem heartbeat_ignored_for_other_stages_cex :
    isHourlyPushNeeded ⟨0, none⟩ 999999 = true ∧
    commitAndPushIfNeeded ⟨0, none⟩ 999999 ("metadata") 10 false true true =
      { attempts := [GitAction.stageAll, GitAction.commit], result := true,
        commit_count := 1, last_push_time := none } := by
  decide

/-- C1 (amended).  The hourly heartbeat is stored only under the `'hourly'`
key of the push table: `_should_push` honours it exactly for stage
`'hourly'`; for every other stage the push decision is independent of
`last_push_time` and of the clock; and since `'hourly'` has no entry in the
commit table, a non-forced `record('hourly', ...)` call returns without
committing or pushing, so the heartbeat never forces a push on its own. -/
theorem heartbeat_only_under_hourly_stage (st : GitState) (now count : Nat)
    (commitOk pushOk : Bool) :
    (shouldPush st now ("hourly") count false = isHourlyPushNeeded st now) ∧
    (∀ stage, stage ≠ "hourly" → ∀ (st' : GitState) (now' : Nat),
      shouldPush st now stage count false = shouldPush st' now' stage count false) ∧
    ((commitAndPushIfNeeded st now ("hourly") count false commitOk pushOk).attempts
        = [] ∧
     (commitAndPushIfNeeded st now ("hourly") count false commitOk pushOk).result
        = false) := by
  refine ⟨rfl, ?_, rfl, rfl⟩
  intro stage hst st' now'
  simp only [shouldPush, pushConditions]
  split_ifs <;> simp_all

/-- C1 (witness for the amended theorem), at stage `'metadata'`. -/
theorem heartbeat_only_under_hourly_stage_witness :
    shouldPush ⟨0, some 1⟩ 999999 ("metadata") 7 false =
      shouldPush ⟨3, none⟩ 0 ("metadata") 7 false :=
  (heartbeat_only_under_hourly_stage ⟨0, some 1⟩ 999999 7 true true).2.1
    ("metadata") (by decide) ⟨3, none⟩ 0

/-- C9.  In every `commit_and_push_if_needed` call: the attempted actions
are a prefix of stage-commit-push, so a commit attempt always precedes any
push attempt; when the commit step fails the attempt is aborted and push is
never attempted; and when the push step fails after a successful commit the
committed state is kept (the commit count was incremented and is not rolled
back, and `last_push_time` is unchanged). -/
theorem commit_precedes_push_no_rollback (st : GitState) (now : Nat)
    (stage : String) (count : Nat) (force commitOk pushOk : Bool) :
    ((commitAndPushIfNeeded st now stage count force commitOk pushOk).attempts = []
      ∨ (commitAndPushIfNeeded st now stage count force commitOk pushOk).attempts
          = [GitAction.stageAll, GitAction.commit]
      ∨ (commitAndPushIfNeeded st now stage count force commitOk pushOk).attempts
          = [GitAction.stageAll, GitAction.commit, GitAction.push]) ∧
    (commitOk = false →
      GitAction.push ∉
        (commitAndPushIfNeeded st now stage count force commitOk pushOk).attempts) ∧
    (GitAction.push ∈
        (commitAndPushIfNeeded st now stage count force commitOk pushOk).attempts →
      pushOk = false →
      (commitAndPushIfNeeded st now stage count force commitOk pushOk).commit_count
          = st.commit_count + 1 ∧
      (commitAndPushIfNeeded st now stage count force commitOk pushOk).last_push_time
          = st.last_push_time) := by
  simp only [commitAndPushIfNeeded]
  split_ifs <;> simp_all

/-- C9 (witness): a push failure after a successful commit at stage
`'status_update'` leaves the incremented commit count and the old
`last_push_time` in place. -/
theorem commit_precedes_push_no_rollback_witness :
    (commitAndPushIfNeeded ⟨5, some 100⟩ 100000 ("status_update") 1 false true
        false).commit_count = 6 ∧
    (commitAndPushIfNeeded ⟨5, some 100⟩ 100000 ("status_update") 1 false true
        false).last_push_time = some 100 :=
  (commit_precedes_push_no_rollback ⟨5, some 100⟩ 100000 ("status_update") 1
    false true false).2.2 (by decide) rfl

/-- C10.  For a stage name that appears in neither cadence table (such as
`'rss_update'`), a non-forced call performs no git action and returns
`false` for every count and state, while `force=true` does trigger the
commit-and-push path. -/
theorem unknown_stage_no_commit_no_push (stage : String)
    (h : stage ∉ ["metadata", "abstract", "fulltext", "ocr",
                  "batch_complete", "status_update", "hourly"]) :
    ∀ (st : GitState) (now count : Nat) (commitOk pushOk : Bool),
      commitAndPushIfNeeded st now stage count false commitOk pushOk =
        { attempts := [], result := false, commit_count := st.commit_count,
          last_push_time := st.last_push_time } ∧
      (commitAndPushIfNeeded st now stage count true true true).attempts =
        [GitAction.stageAll, GitAction.commit, GitAction.push] := by
  intro st now count commitOk pushOk
  have hc : shouldCommit stage count false = false := by
    simp only [shouldCommit, commitConditions]
    split_ifs <;> simp_all
  constructor
  · simp [commitAndPushIfNeeded, hc]
  · simp [commitAndPushIfNeeded, shouldCommit, shouldPush]

/-- C10 (witness), at the concrete stage `'rss_update'` used by the RSS
worker. -/
theorem unknown_stage_no_commit_no_push_witness :
    commitAndPushIfNeeded ⟨2, some 7⟩ 50000 ("rss_update") 12345 false true true =
      { attempts := [], result := false, commit_count := 2,
        last_push_time := some 7 } :=
  (unknown_stage_no_commit_no_push ("rss_update") (by decide) ⟨2, some 7⟩
    50000 12345 true true).1

/-! ## Theorems: queue routing and the metadata worker (C2, C3) -/

/-- C2 (counterexample).  The metadata worker (`_processing_worker`) never
inspects `item.stage`: dequeueing a fulltext-stage item whose pmid is in the
dedup index (which holds for every item the metadata worker itself emitted),
it hits the `continue` branch and the item is discarded — it is not put back
on the queue, contradicting the claim that every mismatched-stage dequeued
item is re-enqueued. -/
theorem metadata_worker_discards_mismatched_item_cex :
    mismatchedItem.stage = "fulltext" ∧
    processingWorkerStep ["111"] mismatchedItem =
      { processed_pmids := ["111"], enqueued := [], stores := [],
        raised := false } := by
  decide

/-- C2 (amended).  The fulltext and ocr workers do re-enqueue a
mismatched-stage item at the tail unchanged; the metadata worker, however,
performs no stage check at all — it discards (without re-enqueueing) any
dequeued item whose pmid is already in the dedup index, and otherwise
processes the item as metadata work whatever its stage tag. -/
theorem requeue_behavior_per_worker (existing : Option Article)
    (adapterResults : List (Option Article)) (item : WorkItem) :
    (item.stage ≠ "fulltext" →
      fulltextWorkerStep existing adapterResults item =
        { enqueued := [item], stores := [] }) ∧
    (item.stage ≠ "ocr" → ocrWorkerStep item = [item]) ∧
    (∀ processed_pmids, item.pmid ∈ processed_pmids →
      processingWorkerStep processed_pmids item =
        { processed_pmids := processed_pmids, enqueued := [], stores := [],
          raised := false }) := by
  refine ⟨fun h => ?_, fun h => ?_, fun processed hmem => ?_⟩
  · simp [fulltextWorkerStep, h]
  · simp [ocrWorkerStep, h]
  · simp [processingWorkerStep, hmem]

/-- C2 (witness for the amended theorem): the fulltext worker re-enqueues a
metadata-stage item unchanged. -/
theorem requeue_behavior_per_worker_witness :
    fulltextWorkerStep none []
        { pmid := "9", article := {}, stage := "metadata", category := "c",
          search_term := "t" } =
      { enqueued := [{ pmid := "9", article := {}, stage := "metadata",
                       category := "c", search_term := "t" }], stores := [] } :=
  (requeue_behavior_per_worker none []
    { pmid := "9", article := {}, stage := "metadata", category := "c",
      search_term := "t" }).1 (by decide)

/-- Score evaluation: an article whose title and abstract are both empty
(and with no keywords) scores 0. -/
theorem calcRelevanceScore_lowRel : calcRelevanceScore lowRelArticle = 0 := by
  have e1 : pyLower ("") = ("") := by decide
  have e2 : joinSpace ([] : List String) = ("") := rfl
  have e3 : (("" : String) ++ " " ++ "") = (" ") := by decide
  have e4 : calcTextRelevance ("") = 0 := by decide
  have e5 : calcTextRelevance (" ") = 0 := by decide
  simp only [calcRelevanceScore, lowRelArticle]
  rw [e2, e1, e3, e4, e5]
  norm_num [ratMin]

/-- Score evaluation: the text `"cannabis formulation"` has one formulation
keyword and one cannabis term in two words, so its text relevance caps at 1. -/
theorem calcTextRelevance_cf : calcTextRelevance ("cannabis formulation") = 1 := by
  have hne : ¬(("cannabis formulation" : String) = "") := by decide
  have hf : (formulation_keywords.filter
      (fun k => strContains k ("cannabis formulation"))).length = 1 := by decide
  have hc : (cannabis_terms.filter
      (fun t => strContains t ("cannabis formulation"))).length = 1 := by decide
  have ht : (pySplitWs ("cannabis formulation")).length = 2 := by decide
  simp only [calcTextRelevance, hf, hc, ht, if_neg hne]
  norm_num [ratMin]

/-- Score evaluation: `relevantArticle` scores 4/5, above the threshold. -/
theorem calcRelevanceScore_relevant : calcRelevanceScore relevantArticle = 4/5 := by
  have e0 : pyLower ("") = ("") := by decide
  have e1 : pyLower ("cannabis formulation") = ("cannabis formulation") := by decide
  have e2 : joinSpace ([] : List String) = ("") := rfl
  have e3 : (("" : String) ++ " " ++ "") = (" ") := by decide
  have e5 : calcTextRelevance (" ") = 0 := by decide
  simp only [calcRelevanceScore, relevantArticle]
  rw [e2, e0, e1, e3, calcTextRelevance_cf, e5]
  norm_num [ratMin]

/-- C3 (counterexample).  When enrichment filters the record (score below
0.3), `process_articles` returns an empty list and the worker's
`[...][0]` raises `IndexError`; the item is dropped with no successor, no
store write and no dedup insertion, but the body does raise an error (caught
by the worker loop's handler), contradicting the claim's "no error is
raised". -/
theorem low_relevance_drop_raises_cex :
    calcRelevanceScore lowRelArticle < 3/10 ∧
    processingWorkerStep [] lowRelItem =
      { processed_pmids := [], enqueued := [], stores := [],
        raised := true } := by
  have hs : calcRelevanceScore lowRelArticle < 3/10 := by
    rw [calcRelevanceScore_lowRel]; norm_num
  refine ⟨hs, ?_⟩
  have hfiltered : processSingleArticle lowRelArticle = none := by
    simp [processSingleArticle, hs]
  have hnew : lowRelItem.pmid ∉ ([] : List String) := by decide
  simp [processingWorkerStep, hnew, processArticles,
    show lowRelItem.article = lowRelArticle from rfl, hfiltered]

/-- C3 (amended).  For every dequeued item not yet in the dedup index whose
article scores below the 0.3 relevance threshold, the metadata worker emits
no successor, persists nothing, and does not add the contentId to the dedup
index — but the drop happens through a raised `IndexError` (from indexing
the empty filtered list) that the worker loop's exception handler catches,
not through an error-free path. -/
theorem low_relevance_drop_amended (processed_pmids : List String)
    (item : WorkItem) (hnew : item.pmid ∉ processed_pmids)
    (hlow : calcRelevanceScore item.article < 3/10) :
    processingWorkerStep processed_pmids item =
      { processed_pmids := processed_pmids, enqueued := [], stores := [],
        raised := true } := by
  have hfiltered : processSingleArticle item.article = none := by
    simp [processSingleArticle, hlow]
  simp [processingWorkerStep, hnew, processArticles, hfiltered]

/-- C3 (witness for the amended theorem). -/
theorem low_relevance_drop_amended_witness :
    processingWorkerStep ["zz"] lowRelItem =
      { processed_pmids := ["zz"], enqueued := [], stores := [],
        raised := true } :=
  low_relevance_drop_amended ["zz"] lowRelItem (by decide)
    (show calcRelevanceScore lowRelArticle < 3/10 by
      rw [calcRelevanceScore_lowRel]; norm_num)

/-! ## Theorems: full-text failure and early dedup (C4) -/

/-- When every adapter fails, the adapter loop of `download_full_text`
returns the original article dict unchanged. -/
theorem downloadLoop_all_fail (article : Article) :
    ∀ adapterResults : List (Option Article),
      (∀ r ∈ adapterResults, adapterSucceeds r = false) →
      downloadLoop article adapterResults = article := by
  intro rs
  induction rs with
  | nil => intro _; rfl
  | cons r rest ih =>
    intro h
    match r with
    | none => exact ih fun x hx => h x (List.mem_cons_of_mem _ hx)
    | some result =>
      have hr := h (some result) (List.mem_cons_self _ _)
      simp only [adapterSucceeds] at hr
      simp [downloadLoop, hr, ih fun x hx => h x (List.mem_cons_of_mem _ hx)]

/-- C4.  Take any new item whose article passes the relevance threshold (so
the metadata worker succeeds) and has no `full_text` field (as scraped
records do).  The metadata worker emits exactly one fulltext-stage
successor and inserts the pmid into the dedup index.  If the full-text
fetch then fails on every adapter (and nothing was downloaded before), the
fulltext worker emits no successor — the item never reaches the chunk/ocr
stage — yet the pmid is already in the dedup index, because the index was
updated at metadata completion. -/
theorem fulltext_failure_item_lost_but_deduped (processed_pmids : List String)
    (item : WorkItem) (adapterResults : List (Option Article))
    (hnew : item.pmid ∉ processed_pmids)
    (hrel : 3/10 ≤ calcRelevanceScore item.article)
    (hft : item.article.full_text = none)
    (hfail : ∀ r ∈ adapterResults, adapterSucceeds r = false) :
    ∃ succ : WorkItem,
      (processingWorkerStep processed_pmids item).enqueued = [succ] ∧
      succ.stage = "fulltext" ∧ succ.pmid = item.pmid ∧
      (fulltextWorkerStep none adapterResults succ).enqueued = [] ∧
      succ.pmid ∈ (processingWorkerStep processed_pmids item).processed_pmids := by
  have hok : processSingleArticle item.article =
      some { item.article with relevance_score := some (calcRelevanceScore item.article) } := by
    simp [processSingleArticle, not_lt.mpr hrel]
  refine ⟨{ pmid := item.pmid,
            article := { item.article with
                         relevance_score := some (calcRelevanceScore item.article) },
            stage := "fulltext", category := item.category,
            search_term := item.search_term }, ?_, rfl, rfl, ?_, ?_⟩
  · simp [processingWorkerStep, hnew, processArticles, hok]
  · have hdl := downloadLoop_all_fail
      { item.article with relevance_score := some (calcRelevanceScore item.article) }
      adapterResults hfail
    simp only [fulltextWorkerStep, downloadFullText, hdl]
    simp [strTruthy, hft]
  · simp [processingWorkerStep, hnew, processArticles, hok, List.mem_insert_iff]

/-- C4 (witness), at pmid `'333'` with four failing adapters. -/
theorem fulltext_failure_item_lost_but_deduped_witness :
    ∃ succ : WorkItem,
      (processingWorkerStep []
        { pmid := "333", article := relevantArticle, stage := "metadata",
          category := "c", search_term := "t" }).enqueued = [succ] ∧
      succ.stage = "fulltext" ∧ succ.pmid = "333" ∧
      (fulltextWorkerStep none [none, none, none, none] succ).enqueued = [] ∧
      succ.pmid ∈ (processingWorkerStep []
        { pmid := "333", article := relevantArticle, stage := "metadata",
          category := "c", search_term := "t" }).processed_pmids :=
  fulltext_failure_item_lost_but_deduped []
    { pmid := "333", article := relevantArticle, stage := "metadata",
      category := "c", search_term := "t" }
    [none, none, none, none] (by decide)
    (show (3 : ℚ)/10 ≤ calcRelevanceScore relevantArticle by
      rw [calcRelevanceScore_relevant]; norm_num)
    rfl (by decide)

/-! ## Theorems: discover-stage dedup filtering (C8) -/

/-- C8 (counterexample).  A search result whose `pmid` is the empty string
is not enqueued even though its identifier is absent from the dedup index
(the worker's `if pmid` truthiness test rejects it), so it is not the case
that exactly the records with identifier absent from the index are
enqueued. -/
theorem search_enqueue_falsy_pmid_cex :
    searchWorkerEnqueue [] ("c") ("t") [{ pmid := some ("") }] = [] ∧
    ("" ∉ ([] : List String)) := by
  decide

/-- C8 (amended).  A repeated sighting of an identifier already in the dedup
index never enqueues an item; of a search result list, exactly the records
whose identifier is present, non-empty and absent from the index are
enqueued, each as a metadata-stage item carrying that record. -/
theorem search_enqueue_exactly_new_truthy (processed_pmids : List String)
    (category term : String) (articles : List Article) :
    (∀ it ∈ searchWorkerEnqueue processed_pmids category term articles,
      it.stage = "metadata" ∧ it.pmid ∉ processed_pmids ∧ it.pmid ≠ "" ∧
      it.article.pmid = some it.pmid ∧ it.article ∈ articles) ∧
    (∀ a ∈ articles, ∀ p, a.pmid = some p → p ≠ "" → p ∉ processed_pmids →
      ∃ it ∈ searchWorkerEnqueue processed_pmids category term articles,
        it.pmid = p ∧ it.article = a ∧ it.stage = "metadata") := by
  constructor
  · intro it hit
    rw [searchWorkerEnqueue, List.mem_filterMap] at hit
    obtain ⟨a, ha, hfa⟩ := hit
    match hpm : a.pmid with
    | none => simp [enqueueFromSearch, hpm] at hfa
    | some p =>
      simp only [enqueueFromSearch, hpm] at hfa
      by_cases hp0 : p = ""
      · simp [hp0] at hfa
      by_cases hpin : p ∈ processed_pmids
      · simp [hp0, hpin] at hfa
      simp only [if_neg hp0, if_neg hpin, Option.some.injEq] at hfa
      cases hfa
      exact ⟨rfl, hpin, hp0, hpm, ha⟩
  · intro a ha p hp hp0 hpin
    refine ⟨{ pmid := p, article := a, stage := "metadata",
              category := category, search_term := term }, ?_, rfl, rfl, rfl⟩
    rw [searchWorkerEnqueue, List.mem_filterMap]
    exact ⟨a, ha, by simp only [enqueueFromSearch, hp, if_neg hp0, if_neg hpin]⟩

/-- C8 (witness for the amended theorem): with index `{'111'}` and results
`['111', '222']`, only `'222'` is enqueued, at stage metadata. -/
theorem search_enqueue_exactly_new_truthy_witness :
    ∃ it ∈ searchWorkerEnqueue ["111"] ("c") ("t")
        [{ pmid := some ("111") }, { pmid := some ("222") }],
      it.pmid = "222" ∧ it.article = { pmid := some ("222") } ∧
      it.stage = "metadata" :=
  (search_enqueue_exactly_new_truthy ["111"] ("c") ("t")
      [{ pmid := some ("111") }, { pmid := some ("222") }]).2
    { pmid := some ("222") } (by decide) ("222") rfl (by decide) (by decide)

/-! ## Theorems: RAG chunking (C5, C6, C7) -/

/-- C5.  The chunker does not guard a non-positive stride: with
`overlap = windowSize` (stride 0) the `range` call raises `ValueError` and
the operation fails instead of terminating normally, for every input text;
with `overlap > windowSize` (negative stride) the `range` is empty and the
call returns no chunks. -/
theorem chunker_stride_zero_raises (text pmid : String) :
    createRagChunks text pmid 1000 1000 =
      Except.error ("range() arg 3 must not be zero") ∧
    createRagChunks text pmid 1000 1200 = Except.ok [] :=
  ⟨rfl, rfl⟩

/-- The source's chunk loop equals the accumulator-free `buildChunks`. -/
theorem chunkLoop_eq_buildChunks (pmid : String) (words : List String)
    (cs : Nat) :
    ∀ (starts : List Nat) (acc : List Chunk),
      chunkLoop pmid words cs acc starts =
        acc ++ buildChunks pmid words cs acc.length starts := by
  intro starts
  induction starts with
  | nil => intro acc; simp [chunkLoop, buildChunks]
  | cons i rest ih =>
    intro acc
    by_cases h : 50 < (pyStrip (joinSpace ((words.drop i).take cs))).length
    · have hk : chunkKept words cs i = true := by
        simp [chunkKept, windowText, h]
      simp only [chunkLoop, if_pos h, buildChunks, hk, if_pos, ih]
      simp [chunkOf, windowText, List.append_assoc]
    · have hk : chunkKept words cs i = false := by
        simp [chunkKept, windowText, h]
      simp only [chunkLoop, if_neg h, buildChunks, hk, ih]
      simp

/-- Every chunk built by `buildChunks` is a kept window. -/
theorem mem_buildChunks_imp (pmid : String) (words : List String) (cs : Nat) :
    ∀ (starts : List Nat) (k : Nat) (c : Chunk),
      c ∈ buildChunks pmid words cs k starts →
      ∃ i, i ∈ starts ∧ chunkKept words cs i = true ∧
        c.text = windowText words cs i ∧ c.start_word = i := by
  intro starts
  induction starts with
  | nil => intro k c hc; simp [buildChunks] at hc
  | cons i rest ih =>
    intro k c hc
    by_cases h : chunkKept words cs i = true
    · rw [buildChunks, if_pos h] at hc
      rcases List.mem_cons.mp hc with rfl | hc'
      · exact ⟨i, List.mem_cons_self _ _, h, rfl, rfl⟩
      · obtain ⟨i', hi', hk', ht', hs'⟩ := ih _ _ hc'
        exact ⟨i', List.mem_cons_of_mem _ hi', hk', ht', hs'⟩
    · rw [buildChunks, if_neg h] at hc
      obtain ⟨i', hi', hk', ht', hs'⟩ := ih _ _ hc
      exact ⟨i', List.mem_cons_of_mem _ hi', hk', ht', hs'⟩

/-- Every kept window yields a chunk in `buildChunks`. -/
theorem kept_mem_buildChunks (pmid : String) (words : List String) (cs : Nat) :
    ∀ (starts : List Nat) (k i : Nat), i ∈ starts →
      chunkKept words cs i = true →
      ∃ c ∈ buildChunks pmid words cs k starts,
        c.start_word = i ∧ c.text = windowText words cs i := by
  intro starts
  induction starts with
  | nil => intro k i hi; simp at hi
  | cons j rest ih =>
    intro k i hi hk
    rcases List.mem_cons.mp hi with rfl | hi'
    · rw [buildChunks, if_pos hk]
      exact ⟨chunkOf pmid words cs k i, List.mem_cons_self _ _, rfl, rfl⟩
    · by_cases hj : chunkKept words cs j = true
      · rw [buildChunks, if_pos hj]
        obtain ⟨c, hc, hcs⟩ := ih (k + 1) i hi' hk
        exact ⟨c, List.mem_cons_of_mem _ hc, hcs⟩
      · rw [buildChunks, if_neg hj]
        exact ih k i hi' hk

/-- Unfolding `createRagChunks` in the positive-stride case. -/
theorem createRagChunks_ok (text pmid : String) (cs ov : Nat) (hov : ov < cs) :
    createRagChunks text pmid cs ov =
      Except.ok (buildChunks pmid (pySplitWs text) cs 0
        (windowStarts (pySplitWs text).length (cs - ov))) := by
  have h1 : ¬(cs = ov) := by omega
  have h2 : ¬(cs < ov) := by omega
  rw [createRagChunks]
  simp only [if_neg h1, if_neg h2, chunkLoop_eq_buildChunks]
  simp

/-- C6 (counterexample).  For a 50-character single-word text the unique
window has trimmed length exactly 50, yet no chunk is emitted: the source
keeps a window only when its trimmed length is strictly greater than 50,
so the claim that windows of trimmed length exactly 50 are emitted fails. -/
theorem chunk_exactly_50_dropped_cex :
    createRagChunks text50 ("p") 1000 200 = Except.ok [] ∧
    windowStarts (pySplitWs text50).length 800 = [0] ∧
    (pyStrip (windowText (pySplitWs text50) 1000 0)).length = 50 := by
  refine ⟨rfl, by decide, by decide⟩

/-- C6 (amended).  For every text and every configuration with positive
stride, the chunker drops exactly the windows whose trimmed text length is
at most 50 characters: every emitted chunk has trimmed text length strictly
greater than 50, and every window whose trimmed text length is strictly
greater than 50 is emitted as a chunk. -/
theorem chunk_filter_strict_50 (text pmid : String) (cs ov : Nat)
    (hov : ov < cs) (res : List Chunk)
    (h : createRagChunks text pmid cs ov = Except.ok res) :
    (∀ c ∈ res, 50 < (pyStrip c.text).length) ∧
    (∀ i ∈ windowStarts (pySplitWs text).length (cs - ov),
      50 < (pyStrip (windowText (pySplitWs text) cs i)).length →
      ∃ c ∈ res, c.start_word = i ∧
        c.text = windowText (pySplitWs text) cs i) := by
  rw [createRagChunks_ok text pmid cs ov hov] at h
  have hres : res = buildChunks pmid (pySplitWs text) cs 0
      (windowStarts (pySplitWs text).length (cs - ov)) := (Except.ok.inj h).symm
  subst hres
  constructor
  · intro c hc
    obtain ⟨i, _, hk, ht, _⟩ := mem_buildChunks_imp pmid (pySplitWs text) cs _ _ c hc
    rw [ht]
    exact of_decide_eq_true hk
  · intro i hi hgt
    exact kept_mem_buildChunks pmid (pySplitWs text) cs _ 0 i hi
      (decide_eq_true hgt)

/-- C6 (witness for the amended theorem), on a 51-character single-word
text, whose unique window is emitted. -/
theorem chunk_filter_strict_50_witness :
    (∀ c ∈ res51, 50 < (pyStrip c.text).length) ∧
    (∀ i ∈ windowStarts (pySplitWs text51).length (1000 - 200),
      50 < (pyStrip (windowText (pySplitWs text51) 1000 i)).length →
      ∃ c ∈ res51, c.start_word = i ∧
        c.text = windowText (pySplitWs text51) 1000 i) :=
  chunk_filter_strict_50 text51 ("p") 1000 200 (by decide) res51 rfl

/-! ### String lemmas for the stride analysis (C7) -/

/-- Dropping a whitespace prefix keeps at least all non-whitespace
characters. -/
theorem filter_nonws_length_le_dropWhile (l : List Char) :
    (l.filter (fun c => !c.isWhitespace)).length ≤
      (l.dropWhile Char.isWhitespace).length := by
  induction l with
  | nil => simp
  | cons c cs ih =>
    by_cases h : c.isWhitespace
    · simpa [List.dropWhile_cons, List.filter_cons, h] using ih
    · simp only [List.dropWhile_cons, List.filter_cons, h]
      simpa using List.length_filter_le _ cs

/-- `dropWhile isWhitespace` removes no non-whitespace character. -/
theorem filter_nonws_dropWhile (l : List Char) :
    (l.dropWhile Char.isWhitespace).filter (fun c => !c.isWhitespace) =
      l.filter (fun c => !c.isWhitespace) := by
  induction l with
  | nil => rfl
  | cons c cs ih =>
    by_cases h : c.isWhitespace
    · simp [List.dropWhile_cons, List.filter_cons, h, ih]
    · simp [List.dropWhile_cons, h]

/-- The stripped text keeps at least every non-whitespace character. -/
theorem stripCore_length_ge (l : List Char) :
    (l.filter (fun c => !c.isWhitespace)).length ≤ (stripCore l).length := by
  rw [stripCore, List.length_reverse]
  calc (l.filter (fun c => !c.isWhitespace)).length
      = ((l.dropWhile Char.isWhitespace).filter
          (fun c => !c.isWhitespace)).length := by
        rw [filter_nonws_dropWhile]
    _ = (((l.dropWhile Char.isWhitespace).reverse).filter
          (fun c => !c.isWhitespace)).length := by
        rw [List.filter_reverse, List.length_reverse]
    _ ≤ _ := filter_nonws_length_le_dropWhile _

/-- Unfolding the character data of a two-or-more-word join. -/
theorem joinSpace_cons_cons (w w2 : String) (ws : List String) :
    (joinSpace (w :: w2 :: ws)).data =
      w.data ++ ' ' :: (joinSpace (w2 :: ws)).data := by
  show ((w ++ " ") ++ joinSpace (w2 :: ws)).data = _
  rw [String.data_append, String.data_append]
  simp [show (" " : String).data = [' '] from rfl]

/-- The non-whitespace characters of a join of whitespace-free words are
exactly the words' characters, in order. -/
theorem joinSpace_filter_nonws :
    ∀ ws : List String, (∀ w ∈ ws, ∀ c ∈ w.data, c.isWhitespace = false) →
      (joinSpace ws).data.filter (fun c => !c.isWhitespace) =
        (ws.map String.data).flatten := by
  intro ws
  induction ws with
  | nil => intro _; rfl
  | cons w ws ih =>
    intro h
    cases ws with
    | nil =>
      simp only [joinSpace, List.map_cons, List.map_nil, List.flatten_cons,
        List.flatten_nil, List.append_nil]
      exact List.filter_eq_self.mpr
        (fun c hc => by simp [h w (List.mem_cons_self _ _) c hc])
    | cons w2 ws2 =>
      have hw : w.data.filter (fun c => !c.isWhitespace) = w.data :=
        List.filter_eq_self.mpr
          (fun c hc => by simp [h w (List.mem_cons_self _ _) c hc])
      have hrec := ih (fun w' hw' => h w' (List.mem_cons_of_mem _ hw'))
      simp only [joinSpace_cons_cons, List.filter_append, hw, List.filter_cons]
      simp only [show ((' ' : Char).isWhitespace) = true from by decide]
      simp [hrec, List.flatten_cons]

/-- A join of nonempty lists is at least as long as their number. -/
theorem length_le_length_join (ls : List (List Char))
    (h : ∀ x ∈ ls, x ≠ []) : ls.length ≤ ls.flatten.length := by
  induction ls with
  | nil => simp
  | cons x ls ih =>
    simp only [List.flatten_cons, List.length_append, List.length_cons]
    have hx : 1 ≤ x.length := by
      have hne := h x (List.mem_cons_self _ _)
      cases x with
      | nil => simp at hne
      | cons a as => simp
    have := ih (fun y hy => h y (List.mem_cons_of_mem _ hy))
    omega

/-- Tokens produced by `splitWsCore` are nonempty and whitespace-free. -/
theorem splitWsCore_sound :
    ∀ (l acc : List Char), (∀ c ∈ acc, c.isWhitespace = false) →
      ∀ w ∈ splitWsCore l acc, w ≠ [] ∧ ∀ c ∈ w, c.isWhitespace = false := by
  intro l
  induction l with
  | nil =>
    intro acc hacc w hw
    by_cases he : acc.isEmpty
    · simp [splitWsCore, he] at hw
    · have haccne : acc ≠ [] := by
        intro hnil; subst hnil; simp at he
      simp [splitWsCore, he] at hw
      subst hw
      refine ⟨fun hnil => haccne ?_, fun c hc => hacc c (List.mem_reverse.mp hc)⟩
      simpa using congrArg List.reverse hnil
  | cons c cs ih =>
    intro acc hacc w hw
    by_cases hc : c.isWhitespace
    · by_cases he : acc.isEmpty
      · simp [splitWsCore, hc, he] at hw
        exact ih [] (by simp) w hw
      · have haccne : acc ≠ [] := by
          intro hnil; subst hnil; simp at he
        simp [splitWsCore, hc, he] at hw
        rcases hw with rfl | hw'
        · refine ⟨fun hnil => haccne ?_,
            fun ch hch => hacc ch (List.mem_reverse.mp hch)⟩
          simpa using congrArg List.reverse hnil
        · exact ih [] (by simp) w hw'
    · simp [splitWsCore, hc] at hw
      refine ih (c :: acc) ?_ w hw
      intro x hx
      rcases List.mem_cons.mp hx with rfl | hx'
      · simpa using hc
      · exact hacc x hx'

/-- Words produced by `pySplitWs` are nonempty and whitespace-free. -/
theorem pySplitWs_sound (s : String) :
    ∀ w ∈ pySplitWs s, w.data ≠ [] ∧ ∀ c ∈ w.data, c.isWhitespace = false := by
  intro w hw
  simp only [pySplitWs, List.mem_map] at hw
  obtain ⟨wl, hwl, rfl⟩ := hw
  exact splitWsCore_sound s.data [] (by simp) wl hwl

/-- Scanning a whitespace-free token just moves it into the accumulator. -/
theorem splitWsCore_token_prefix :
    ∀ (w : List Char), (∀ c ∈ w, c.isWhitespace = false) →
      ∀ (l acc : List Char),
        splitWsCore (w ++ l) acc = splitWsCore l (w.reverse ++ acc) := by
  intro w
  induction w with
  | nil => intro _ l acc; simp
  | cons c w' ih =>
    intro hw l acc
    have hc : c.isWhitespace = false := hw c (List.mem_cons_self _ _)
    have step := ih (fun x hx => hw x (List.mem_cons_of_mem _ hx)) l (c :: acc)
    calc splitWsCore ((c :: w') ++ l) acc
        = splitWsCore (w' ++ l) (c :: acc) := by
          rw [List.cons_append]
          simp [splitWsCore, hc]
      _ = splitWsCore l (w'.reverse ++ (c :: acc)) := step
      _ = splitWsCore l ((c :: w').reverse ++ acc) := by simp

/-- Splitting a space-join of nonempty whitespace-free words recovers the
words (character-list level). -/
theorem splitWsCore_joinSpace_data :
    ∀ ws : List String, (∀ w ∈ ws, w.data ≠ []) →
      (∀ w ∈ ws, ∀ c ∈ w.data, c.isWhitespace = false) →
      splitWsCore (joinSpace ws).data [] = ws.map String.data := by
  intro ws
  induction ws with
  | nil => intro _ _; rfl
  | cons w ws ih =>
    intro hne hnw
    cases ws with
    | nil =>
      have h1 := splitWsCore_token_prefix w.data
        (hnw w (List.mem_cons_self _ _)) [] []
      rw [List.append_nil] at h1
      show splitWsCore w.data [] = [w.data]
      rw [h1]
      have hrev : (w.data.reverse ++ []).isEmpty = false := by
        rw [List.append_nil]
        have := hne w (List.mem_cons_self _ _)
        cases hd : w.data with
        | nil => exact absurd hd this
        | cons a as => simp [hd]
      simp [splitWsCore, hrev, hne w (List.mem_cons_self _ _)]
    | cons w2 ws2 =>
      rw [joinSpace_cons_cons,
        splitWsCore_token_prefix w.data (hnw w (List.mem_cons_self _ _)) _ []]
      rw [List.append_nil]
      have hrev : (w.data.reverse).isEmpty = false := by
        have := hne w (List.mem_cons_self _ _)
        cases hd : w.data with
        | nil => exact absurd hd this
        | cons a as => simp [hd]
      have hsp : (' ' : Char).isWhitespace = true := by decide
      simp only [splitWsCore, hsp, if_true, hrev, Bool.false_eq_true, if_false,
        List.reverse_reverse]
      rw [ih (fun x hx => hne x (List.mem_cons_of_mem _ hx))
        (fun x hx => hnw x (List.mem_cons_of_mem _ hx))]
      rfl

/-- Splitting a space-join of nonempty whitespace-free words recovers the
words. -/
theorem pySplitWs_joinSpace (ws : List String)
    (hne : ∀ w ∈ ws, w.data ≠ [])
    (hnw : ∀ w ∈ ws, ∀ c ∈ w.data, c.isWhitespace = false) :
    pySplitWs (joinSpace ws) = ws := by
  rw [pySplitWs, splitWsCore_joinSpace_data ws hne hnw, List.map_map]
  rw [show (String.mk ∘ String.data) = id from funext fun s => rfl, List.map_id]

/-! ### Window lemmas for the stride analysis (C7) -/

/-- A non-kept final window contributes no chunk. -/
theorem buildChunks_snoc_not_kept (pmid : String) (words : List String)
    (cs a : Nat) (ha : chunkKept words cs a = false) :
    ∀ (starts : List Nat) (k : Nat),
      buildChunks pmid words cs k (starts ++ [a]) =
        buildChunks pmid words cs k starts := by
  intro starts
  induction starts with
  | nil => intro k; simp [buildChunks, ha]
  | cons i rest ih =>
    intro k
    by_cases hi : chunkKept words cs i = true
    · simp [List.cons_append, buildChunks, hi, ih]
    · have hi' : chunkKept words cs i = false := by
        cases hcc : chunkKept words cs i
        · rfl
        · exact absurd hcc hi
      simp [List.cons_append, buildChunks, hi', ih]

/-- Position formula for `buildChunks` when every window is kept. -/
theorem buildChunks_getElem_all_kept (pmid : String) (words : List String)
    (cs : Nat) :
    ∀ (starts : List Nat), (∀ i ∈ starts, chunkKept words cs i = true) →
      ∀ (k j : Nat),
        (buildChunks pmid words cs k starts)[j]? =
          (starts[j]?).map (fun i => chunkOf pmid words cs (k + j) i) := by
  intro starts
  induction starts with
  | nil => intro _ k j; simp [buildChunks]
  | cons i rest ih =>
    intro hall k j
    have hki := hall i (List.mem_cons_self _ _)
    rw [buildChunks, if_pos hki]
    cases j with
    | zero => simp
    | succ j' =>
      rw [List.getElem?_cons_succ, List.getElem?_cons_succ,
        ih (fun x hx => hall x (List.mem_cons_of_mem _ hx)) (k + 1) j']
      have harith : k + 1 + j' = k + (j' + 1) := by omega
      rw [harith]

/-- With the default 1000-word window, any window start that is followed by
a further start (so at least 801 words remain) passes the 50-character
filter: its window has at least 801 nonempty whitespace-free words, and the
trimmed join keeps all their characters. -/
theorem chunkKept_of_many_words (words : List String)
    (hsound : ∀ w ∈ words, w.data ≠ [] ∧ ∀ c ∈ w.data, c.isWhitespace = false)
    (i : Nat) (hi : i + 800 < words.length) :
    chunkKept words 1000 i = true := by
  apply decide_eq_true
  show 50 < (pyStrip (windowText words 1000 i)).length
  have hwin : ∀ w ∈ (words.drop i).take 1000,
      w.data ≠ [] ∧ ∀ c ∈ w.data, c.isWhitespace = false := by
    intro w hw
    exact hsound w (List.drop_subset _ _ (List.take_subset _ _ hw))
  have hlen : 801 ≤ ((words.drop i).take 1000).length := by
    rw [List.length_take, List.length_drop]
    omega
  have hfil := joinSpace_filter_nonws ((words.drop i).take 1000)
    (fun w hw => (hwin w hw).2)
  have hjoin : ((words.drop i).take 1000).length ≤
      ((((words.drop i).take 1000).map String.data).flatten).length := by
    have hne : ∀ x ∈ ((words.drop i).take 1000).map String.data, x ≠ [] := by
      intro x hx
      rw [List.mem_map] at hx
      obtain ⟨w, hw, rfl⟩ := hx
      exact (hwin w hw).1
    have := length_le_length_join (((words.drop i).take 1000).map String.data)
      hne
    simpa using this
  have hstrip := stripCore_length_ge
    (joinSpace ((words.drop i).take 1000)).data
  rw [hfil] at hstrip
  show 50 < (stripCore (joinSpace ((words.drop i).take 1000)).data).length
  omega

/-- Adjacent chunks built from all-kept windows at the multiples of 800
have start words exactly 800 apart; when additionally the earlier chunk is
an untruncated window, the `endWord - overlap` relation holds. -/
theorem consecutive_of_all_kept (pmid : String) (words : List String)
    (M j : Nat) (c c' : Chunk)
    (hall : ∀ i ∈ (List.range M).map (fun k => k * 800),
      chunkKept words 1000 i = true)
    (hc : (buildChunks pmid words 1000 0
      ((List.range M).map (fun k => k * 800)))[j]? = some c)
    (hc' : (buildChunks pmid words 1000 0
      ((List.range M).map (fun k => k * 800)))[j+1]? = some c') :
    c'.start_word = c.start_word + 800 ∧
    (c.end_word = c.start_word + 1000 → c.end_word - 200 = c'.start_word) := by
  rw [buildChunks_getElem_all_kept pmid words 1000 _ hall 0 j] at hc
  rw [buildChunks_getElem_all_kept pmid words 1000 _ hall 0 (j+1)] at hc'
  have hj1 : j + 1 < M := by
    by_contra hge
    have hnone : ((List.range M).map (fun k => k * 800))[j+1]? = none := by
      apply List.getElem?_eq_none
      simpa using Nat.le_of_not_lt hge
    rw [hnone] at hc'
    simp at hc'
  have hj : j < M := by omega
  rw [List.getElem?_map, List.getElem?_range hj] at hc
  rw [List.getElem?_map, List.getElem?_range hj1] at hc'
  simp only [Option.map_some'] at hc hc'
  obtain rfl := (Option.some.inj hc).symm
  obtain rfl := (Option.some.inj hc').symm
  constructor
  · simp only [chunkOf]
    ring
  · intro hend
    simp only [chunkOf] at hend ⊢
    omega

/-- C7 (amended).  With windowSize 1000 and overlap 200, consecutive
emitted chunks of the same item always have `startWord`s exactly 800 apart
(the stride), and `chunk[i].endWord - 200 = chunk[i+1].startWord` holds
whenever chunk `i` is an untruncated window
(`endWord = startWord + 1000`); when chunk `i` is cut short by the end of
the text its `endWord` is clamped to the word count and the relation
fails even for a non-final chunk. -/
theorem chunk_stride_800_consecutive (text pmid : String) (res : List Chunk)
    (h : createRagChunks text pmid 1000 200 = Except.ok res) :
    ∀ (j : Nat) (c c' : Chunk), res[j]? = some c → res[j+1]? = some c' →
      c'.start_word = c.start_word + 800 ∧
      (c.end_word = c.start_word + 1000 → c.end_word - 200 = c'.start_word) := by
  intro j c c' hc hc'
  rw [createRagChunks_ok text pmid 1000 200 (by omega)] at h
  have hres : res = buildChunks pmid (pySplitWs text) 1000 0
      (windowStarts (pySplitWs text).length (1000 - 200)) :=
    (Except.ok.inj h).symm
  subst hres
  set words := pySplitWs text with hwords
  set n := words.length with hn
  rw [show (1000 - 200 : Nat) = 800 from rfl] at hc hc'
  set m := (n + 800 - 1) / 800 with hm
  have hsound : ∀ w ∈ words, w.data ≠ [] ∧
      ∀ ch ∈ w.data, ch.isWhitespace = false := pySplitWs_sound text
  have hkept : ∀ jj, jj + 1 < m → chunkKept words 1000 (jj * 800) = true := by
    intro jj hjj
    apply chunkKept_of_many_words words hsound
    have h1 : m * 800 ≤ n + 799 := by
      rw [hm]
      exact Nat.div_mul_le_self _ _
    omega
  have hws : windowStarts n 800 = (List.range m).map (fun k => k * 800) := by
    rw [windowStarts, ← hm]
  rw [hws] at hc hc'
  rcases Nat.eq_zero_or_pos m with hM0 | hMpos
  · rw [hM0] at hc
    simp [buildChunks] at hc
  · obtain ⟨m', hM⟩ : ∃ m', m = m' + 1 := ⟨m - 1, by omega⟩
    rw [hM] at hc hc'
    by_cases hlast : chunkKept words 1000 (m' * 800) = true
    · have hall : ∀ i ∈ (List.range (m' + 1)).map (fun k => k * 800),
          chunkKept words 1000 i = true := by
        intro i hi
        rw [List.mem_map] at hi
        obtain ⟨k, hk, rfl⟩ := hi
        rw [List.mem_range] at hk
        rcases Nat.lt_succ_iff_lt_or_eq.mp hk with hk' | rfl
        · exact hkept k (by omega)
        · exact hlast
      exact consecutive_of_all_kept pmid words (m' + 1) j c c' hall hc hc'
    · have hlast' : chunkKept words 1000 (m' * 800) = false := by
        cases hcc : chunkKept words 1000 (m' * 800)
        · rfl
        · exact absurd hcc hlast
      rw [List.range_succ, List.map_append] at hc hc'
      simp only [List.map_cons, List.map_nil] at hc hc'
      rw [buildChunks_snoc_not_kept pmid words 1000 _ hlast'] at hc hc'
      have hall : ∀ i ∈ (List.range m').map (fun k => k * 800),
          chunkKept words 1000 i = true := by
        intro i hi
        rw [List.mem_map] at hi
        obtain ⟨k, hk, rfl⟩ := hi
        rw [List.mem_range] at hk
        exact hkept k (by omega)
      exact consecutive_of_all_kept pmid words m' j c c' hall hc hc'

/-- The 830 one-character words are nonempty and whitespace-free. -/
theorem replicate_a_sound :
    ∀ w ∈ List.replicate 830 ("a" : String),
      w.data ≠ [] ∧ ∀ c ∈ w.data, c.isWhitespace = false := by
  intro w hw
  rw [List.eq_of_mem_replicate hw]
  exact ⟨by decide, by decide⟩

/-- Evaluation of the chunker on `text830`: two chunks, at words 0 and 800,
the first clamped to end word 830. -/
theorem createRagChunks_text830 :
    createRagChunks text830 ("p") 1000 200 = Except.ok res830 := by
  have hsplit : pySplitWs text830 = List.replicate 830 ("a") := by
    rw [show text830 = joinSpace (List.replicate 830 ("a")) from rfl]
    apply pySplitWs_joinSpace
    · intro w hw; rw [List.eq_of_mem_replicate hw]; decide
    · intro w hw; rw [List.eq_of_mem_replicate hw]; intro c hc
      simp at hc
      rw [hc]
      decide
  rw [createRagChunks_ok text830 ("p") 1000 200 (by omega), hsplit]
  simp only [List.length_replicate]
  rw [show (1000 - 200 : Nat) = 800 from rfl]
  rw [show windowStarts 830 800 = [0, 800] from by decide]
  have hk0 : chunkKept (List.replicate 830 ("a")) 1000 0 = true := by
    apply chunkKept_of_many_words _ replicate_a_sound
    simp only [List.length_replicate]
    omega
  have hk800 : chunkKept (List.replicate 830 ("a")) 1000 800 = true := by
    rw [chunkKept, windowText, List.drop_replicate, List.take_replicate]
    decide
  rw [buildChunks, if_pos hk0, buildChunks, if_pos hk800, buildChunks]
  rfl

/-- C7 (counterexample).  `text830` (830 one-character words) yields two
chunks: `(startWord, endWord)` pairs `(0, 830)` and `(800, 830)`.  The
first chunk is not the final chunk, yet
`chunk[0].endWord - 200 = 630 ≠ 800 = chunk[1].startWord`, because the
first window was truncated by the end of the text
(`endWord = min(0 + 1000, 830) = 830`). -/
theorem chunk_overlap_truncated_window_cex :
    (createRagChunks text830 ("p") 1000 200).map
        (fun res => res.map (fun ch => (ch.start_word, ch.end_word))) =
      Except.ok [(0, 830), (800, 830)] ∧ (830 - 200 : Nat) ≠ 800 := by
  refine ⟨?_, by decide⟩
  rw [createRagChunks_text830]
  simp only [Except.map, res830, chunkOf, List.map_cons, List.map_nil]
  norm_num [List.length_replicate, Nat.min_def]

/-- C7 (witness for the amended theorem): on `text830` the two consecutive
chunks have start words 0 and 800 = 0 + 800. -/
theorem chunk_stride_800_consecutive_witness :
    (chunkOf ("p") (List.replicate 830 ("a")) 1000 1 800).start_word =
      (chunkOf ("p") (List.replicate 830 ("a")) 1000 0 0).start_word + 800 :=
  (chunk_stride_800_consecutive text830 ("p") res830 createRagChunks_text830 0
    (chunkOf ("p") (List.replicate 830 ("a")) 1000 0 0)
    (chunkOf ("p") (List.replicate 830 ("a")) 1000 1 800) rfl rfl).1

end PubmedPipeline
